import Mathlib

/-!
Shallow embedding of parts of the nnUNet_personal_extended repository:
the surface-distance metric (nnunet/evaluation/surface_dice.py), the
NexToU encoder/decoder architecture composition
(nnunetv2/.../network_architecture/NexToU_Encoder_Decoder.py) and the
NexToU trainer network factory (nnunetv2/.../loss/nnUNetTrainer_NexToU.py),
together with theorems about them.
-/

set_option maxHeartbeats 1000000

namespace NnunetSpec

/-! ## Surface dice (src/nnunet/evaluation/surface_dice.py)

The surface-distance extraction `__surface_distances` comes from the external
medpy dependency, so it is a parameter (`surface_distances`) of the embedding;
everything from the spacing default onward transcribes
`normalized_surface_dice`.  Masks are abstract (type `α`); `ndim a` plays the
role of `len(a.shape)`.  Distances and the threshold are rationals. -/

/-- Spacing default of `normalized_surface_dice`: `if spacing is None:
spacing = tuple([1 for _ in range(len(a.shape))])`. -/
def resolve_spacing {α : Type} (ndim : α → ℕ) (a : α) (spacing : Option (List ℚ)) :
    List ℚ :=
  match spacing with
  | none => List.replicate (ndim a) 1
  | some s => s

/-- `normalized_surface_dice(a, b, threshold, spacing)`: counts the
thresholded surface distances in both directions and returns
`(tp_a + tp_b) / (tp_a + tp_b + fp + fn)`. -/
def normalized_surface_dice {α : Type} (surface_distances : α → α → List ℚ → List ℚ)
    (ndim : α → ℕ) (a b : α) (threshold : ℚ) (spacing : Option (List ℚ)) : ℚ :=
  let sp := resolve_spacing ndim a spacing
  let a_to_b := surface_distances a b sp
  let b_to_a := surface_distances b a sp
  let tp_a := a_to_b.countP (fun d => decide (d ≤ threshold))
  let tp_b := b_to_a.countP (fun d => decide (d ≤ threshold))
  let fp := a_to_b.countP (fun d => decide (threshold < d))
  let fn := b_to_a.countP (fun d => decide (threshold < d))
  ((tp_a : ℚ) + (tp_b : ℚ)) / ((tp_a : ℚ) + (tp_b : ℚ) + (fp : ℚ) + (fn : ℚ))

/-! ## NexToU stage composition (NexToU_Encoder_Decoder.py)

`NexToU_Encoder.__init__` fixes `n_swin_gnn_stages = 0`, sets
`no_pool_gnn_stage_num = n_stages - 4` and
`n_conv_stages = no_pool_gnn_stage_num - n_swin_gnn_stages`, then selects the
kind of each stage `s` by `if s < n_conv_stages ... elif s <
no_pool_gnn_stage_num ... else ...`.  `NexToU_Decoder.__init__` does the
mirrored computation for `s in range(1, n_stages_encoder)`.  Python integers
are signed, so the embedding uses `Int`. -/

/-- `self.n_swin_gnn_stages = 0` (both encoder and decoder). -/
def n_swin_gnn_stages : Int := 0

/-- Encoder `self.no_pool_gnn_stage_num = n_stages - 4`. -/
def enc_no_pool_gnn_stage_num (n_stages : Int) : Int := n_stages - 4

/-- Encoder `self.n_conv_stages = self.no_pool_gnn_stage_num - self.n_swin_gnn_stages`. -/
def enc_n_conv_stages (n_stages : Int) : Int :=
  enc_no_pool_gnn_stage_num n_stages - n_swin_gnn_stages

/-- The three shapes an encoder stage can take. -/
inductive EncStageKind where
  | convOnly      -- StackedResidualBlocks alone
  | convSwin      -- StackedResidualBlocks + SwinGNNBlocks
  | convPoolSwin  -- StackedResidualBlocks + PoolGNNBlocks + SwinGNNBlocks
deriving DecidableEq

/-- Branch selection for encoder stage `s` in `NexToU_Encoder.__init__`. -/
def encStageKind (n_stages s : Int) : EncStageKind :=
  if s < enc_n_conv_stages n_stages then EncStageKind.convOnly
  else if s < enc_no_pool_gnn_stage_num n_stages then EncStageKind.convSwin
  else EncStageKind.convPoolSwin

/-- Decoder `self.no_pool_gnn_stage_num = n_stages_encoder - 4`. -/
def dec_no_pool_gnn_stage_num (n_stages_encoder : Int) : Int := n_stages_encoder - 4

/-- Decoder `self.n_conv_stages = self.no_pool_gnn_stage_num - self.n_swin_gnn_stages`. -/
def dec_n_conv_stages (n_stages_encoder : Int) : Int :=
  dec_no_pool_gnn_stage_num n_stages_encoder - n_swin_gnn_stages

/-- The three shapes a decoder stage can take. -/
inductive DecStageKind where
  | resPoolSwin  -- StackedResidualBlocks + PoolGNNBlocks + SwinGNNBlocks
  | resSwin      -- StackedResidualBlocks + SwinGNNBlocks
  | resOnly      -- StackedResidualBlocks alone
deriving DecidableEq

/-- Branch selection for decoder stage `s` in `NexToU_Decoder.__init__`:
`if s < (n_stages_encoder-self.no_pool_gnn_stage_num) ... elif s <
(n_stages_encoder-self.n_conv_stages) ... else ...`. -/
def decStageKind (n_stages_encoder s : Int) : DecStageKind :=
  if s < n_stages_encoder - dec_no_pool_gnn_stage_num n_stages_encoder then
    DecStageKind.resPoolSwin
  else if s < n_stages_encoder - dec_n_conv_stages n_stages_encoder then
    DecStageKind.resSwin
  else DecStageKind.resOnly

/-! ## Trainer network factory (nnUNetTrainer_NexToU.py) -/

/-- The three network classes in the `mapping` dictionary of
`nnUNetTrainer_NexToU.build_network_architecture`. -/
inductive NetworkClass where
  | plainConvUNet
  | residualEncoderUNet
  | nexToU
deriving DecidableEq

/-- The `mapping` dictionary (key order as written in the source). -/
def network_mapping : List (String × NetworkClass) :=
  [("PlainConvUNet", NetworkClass.plainConvUNet),
   ("ResidualEncoderUNet", NetworkClass.residualEncoderUNet),
   ("NexToU", NetworkClass.nexToU)]

/-- `nnUNetTrainer_NexToU.build_network_architecture`, reduced to the class
selection it performs: the name is hardcoded to the literal `'NexToU'`
(ignoring `architecture_class_name`), the assert checks membership in the
mapping's keys, and the model is built from `mapping[name]`. -/
def build_network_architecture (architecture_class_name : String) :
    Except String NetworkClass :=
  let segmentation_network_class_name := "NexToU"
  if (network_mapping.map Prod.fst).contains segmentation_network_class_name then
    match network_mapping.lookup segmentation_network_class_name with
    | some cls => Except.ok cls
    | none => Except.error "KeyError"
  else
    Except.error "AssertionError: The network architecture specified by the plans file is non-standard"

/-! ## Windowed (Swin-style) partitioning (NexToU_Encoder_Decoder.py)

A tensor is a shape together with a total function from index lists to
values; index arithmetic shallow-embeds the `permute`/`rearrange` pipeline of
`window_partition` and `window_reverse`.  Both source functions dispatch on
the rank of their tensor argument and raise `NotImplementedError` for any
rank other than 4 or 5. -/

/-- A dense tensor: a shape and a total lookup function on index lists. -/
structure Tensor where
  shape : List ℕ
  data : List ℕ → ℤ

/-- Rank-4 branch of `window_partition`: `x.permute(0, 2, 3, 1)`, then
`rearrange(x, 'b (h p1) (w p2) c -> (b h w) p1 p2 c')`, then
`windows.permute(0, 3, 1, 2)`, expressed by index arithmetic. -/
def window_partition_4d (x : Tensor) (window_size : List ℕ) : Tensor :=
  let B := x.shape.getD 0 0
  let C := x.shape.getD 1 0
  let H := x.shape.getD 2 0
  let W := x.shape.getD 3 0
  let p1 := window_size.getD 0 0
  let p2 := window_size.getD 1 0
  let nh := H / p1
  let nw := W / p2
  { shape := [B * nh * nw, C, p1, p2]
    data := fun idx =>
      let n := idx.getD 0 0
      let c := idx.getD 1 0
      let i1 := idx.getD 2 0
      let i2 := idx.getD 3 0
      x.data [n / (nh * nw), c, (n / nw % nh) * p1 + i1, (n % nw) * p2 + i2] }

/-- Rank-5 branch of `window_partition`: `x.permute(0, 2, 3, 4, 1)`, then
`rearrange(x, 'b (s p1) (h p2) (w p3) c -> (b s h w) p1 p2 p3 c')`, then
`windows.permute(0, 4, 1, 2, 3)`. -/
def window_partition_5d (x : Tensor) (window_size : List ℕ) : Tensor :=
  let B := x.shape.getD 0 0
  let C := x.shape.getD 1 0
  let S := x.shape.getD 2 0
  let H := x.shape.getD 3 0
  let W := x.shape.getD 4 0
  let p1 := window_size.getD 0 0
  let p2 := window_size.getD 1 0
  let p3 := window_size.getD 2 0
  let ns := S / p1
  let nh := H / p2
  let nw := W / p3
  { shape := [B * ns * nh * nw, C, p1, p2, p3]
    data := fun idx =>
      let n := idx.getD 0 0
      let c := idx.getD 1 0
      let i1 := idx.getD 2 0
      let i2 := idx.getD 3 0
      let i3 := idx.getD 4 0
      x.data [n / (ns * (nh * nw)), c, (n / (nh * nw) % ns) * p1 + i1,
              (n / nw % nh) * p2 + i2, (n % nw) * p3 + i3] }

/-- `window_partition(x, window_size)`: dispatches on `len(x.shape)` and
raises `NotImplementedError` for ranks other than 4 and 5. -/
def window_partition (x : Tensor) (window_size : List ℕ) : Except String Tensor :=
  if x.shape.length = 4 then Except.ok (window_partition_4d x window_size)
  else if x.shape.length = 5 then Except.ok (window_partition_5d x window_size)
  else Except.error "NotImplementedError"

/-- Rank-4 branch of `window_reverse`: the inverse rearrangement
`(b h w) p1 p2 c -> b (h p1) (w p2) c` with
`B = int(windows.shape[0] / (H * W / window_size[0] / window_size[1]))`. -/
def window_reverse_4d (windows : Tensor) (window_size : List ℕ)
    (size_tuple : List ℕ) : Tensor :=
  let H := size_tuple.getD 0 0
  let W := size_tuple.getD 1 0
  let p1 := window_size.getD 0 0
  let p2 := window_size.getD 1 0
  let nh := H / p1
  let nw := W / p2
  let B := windows.shape.getD 0 0 / (nh * nw)
  let C := windows.shape.getD 1 0
  { shape := [B, C, H, W]
    data := fun idx =>
      let b := idx.getD 0 0
      let c := idx.getD 1 0
      let i := idx.getD 2 0
      let j := idx.getD 3 0
      windows.data [(b * nh + i / p1) * nw + j / p2, c, i % p1, j % p2] }

/-- Rank-5 branch of `window_reverse`:
`(b s h w) p1 p2 p3 c -> b (s p1) (h p2) (w p3) c`. -/
def window_reverse_5d (windows : Tensor) (window_size : List ℕ)
    (size_tuple : List ℕ) : Tensor :=
  let S := size_tuple.getD 0 0
  let H := size_tuple.getD 1 0
  let W := size_tuple.getD 2 0
  let p1 := window_size.getD 0 0
  let p2 := window_size.getD 1 0
  let p3 := window_size.getD 2 0
  let ns := S / p1
  let nh := H / p2
  let nw := W / p3
  let B := windows.shape.getD 0 0 / (ns * (nh * nw))
  let C := windows.shape.getD 1 0
  { shape := [B, C, S, H, W]
    data := fun idx =>
      let b := idx.getD 0 0
      let c := idx.getD 1 0
      let i := idx.getD 2 0
      let j := idx.getD 3 0
      let k := idx.getD 4 0
      windows.data [((b * ns + i / p1) * nh + j / p2) * nw + k / p3, c,
                    i % p1, j % p2, k % p3] }

/-- `window_reverse(windows, window_size, size_tuple)`: dispatches on
`len(windows.shape)` and raises `NotImplementedError` otherwise. -/
def window_reverse (windows : Tensor) (window_size : List ℕ)
    (size_tuple : List ℕ) : Except String Tensor :=
  if windows.shape.length = 4 then
    Except.ok (window_reverse_4d windows window_size size_tuple)
  else if windows.shape.length = 5 then
    Except.ok (window_reverse_5d windows window_size size_tuple)
  else Except.error "NotImplementedError"

/-! ## Multi-resolution shape schedule (encoder and decoder `__init__`)

Both constructors build `img_shape_list` / `n_size_list` / `img_min_shape`
from `patch_size` and `strides` with the same loop; the encoder version and
the decoder version are transcribed separately so their agreement can be
proved.  `conv_op` is one of `Conv2d`, `Conv3d`, or anything else (which the
source rejects with `ValueError`). -/

/-- The convolution dimensionality the architecture code dispatches on. -/
inductive ConvOp where
  | conv2d
  | conv3d
  | other
deriving DecidableEq

/-- Encoder 2D loop: `for i in range(len(pool_op_kernel_sizes)): h_k, w_k =
pool_op_kernel_sizes[i]; h //= h_k; w //= w_k; img_shape_list.append((h, w));
n_size_list.append(h * w)`.  Tuple unpacking of an entry that is not a pair
raises (`ValueError`). -/
def enc_shape_loop2d : ℕ → ℕ → List (List ℕ) →
    Except String (List (List ℕ) × List ℕ)
  | _, _, [] => Except.ok ([], [])
  | h, w, k :: rest =>
    match k with
    | [h_k, w_k] =>
      match enc_shape_loop2d (h / h_k) (w / w_k) rest with
      | Except.ok (shapes, ns) =>
          Except.ok ([h / h_k, w / w_k] :: shapes, (h / h_k) * (w / w_k) :: ns)
      | Except.error e => Except.error e
    | _ => Except.error "ValueError: not enough values to unpack"

/-- Encoder 3D loop: unpacks `h_k, w_k, d_k` and divides all three. -/
def enc_shape_loop3d : ℕ → ℕ → ℕ → List (List ℕ) →
    Except String (List (List ℕ) × List ℕ)
  | _, _, _, [] => Except.ok ([], [])
  | h, w, d, k :: rest =>
    match k with
    | [h_k, w_k, d_k] =>
      match enc_shape_loop3d (h / h_k) (w / w_k) (d / d_k) rest with
      | Except.ok (shapes, ns) =>
          Except.ok ([h / h_k, w / w_k, d / d_k] :: shapes,
            (h / h_k) * (w / w_k) * (d / d_k) :: ns)
      | Except.error e => Except.error e
    | _ => Except.error "ValueError: not enough values to unpack"

/-- The `img_shape_list` / `n_size_list` / `img_min_shape` computation of
`NexToU_Encoder.__init__` (lines 109-140): `pool_op_kernel_sizes =
strides[1:]`, seed the lists from `patch_size`, run the loop, take the last
entry as `img_min_shape`; any `conv_op` other than `Conv2d`/`Conv3d` raises
`ValueError`. -/
def enc_shape_schedule (conv_op : ConvOp) (patch_size : List ℕ)
    (strides : List (List ℕ)) :
    Except String (List (List ℕ) × List ℕ × List ℕ) :=
  let pool_op_kernel_sizes := strides.drop 1
  match conv_op with
  | ConvOp.conv2d =>
    match patch_size with
    | p0 :: p1 :: _ =>
      match enc_shape_loop2d p0 p1 pool_op_kernel_sizes with
      | Except.ok (shapes, ns) =>
        let img_shape_list := [p0, p1] :: shapes
        let n_size_list := p0 * p1 :: ns
        Except.ok (img_shape_list, n_size_list, img_shape_list.getLastD [])
      | Except.error e => Except.error e
    | _ => Except.error "IndexError"
  | ConvOp.conv3d =>
    match patch_size with
    | p0 :: p1 :: p2 :: _ =>
      match enc_shape_loop3d p0 p1 p2 pool_op_kernel_sizes with
      | Except.ok (shapes, ns) =>
        let img_shape_list := [p0, p1, p2] :: shapes
        let n_size_list := p0 * p1 * p2 :: ns
        Except.ok (img_shape_list, n_size_list, img_shape_list.getLastD [])
      | Except.error e => Except.error e
    | _ => Except.error "IndexError"
  | ConvOp.other => Except.error "ValueError: unknown convolution dimensionality"

/-- Decoder 2D loop (NexToU_Decoder.__init__, lines 287-292). -/
def dec_shape_loop2d : ℕ → ℕ → List (List ℕ) →
    Except String (List (List ℕ) × List ℕ)
  | _, _, [] => Except.ok ([], [])
  | h, w, k :: rest =>
    match k with
    | [h_k, w_k] =>
      match dec_shape_loop2d (h / h_k) (w / w_k) rest with
      | Except.ok (shapes, ns) =>
          Except.ok ([h / h_k, w / w_k] :: shapes, (h / h_k) * (w / w_k) :: ns)
      | Except.error e => Except.error e
    | _ => Except.error "ValueError: not enough values to unpack"

/-- Decoder 3D loop (NexToU_Decoder.__init__, lines 299-305). -/
def dec_shape_loop3d : ℕ → ℕ → ℕ → List (List ℕ) →
    Except String (List (List ℕ) × List ℕ)
  | _, _, _, [] => Except.ok ([], [])
  | h, w, d, k :: rest =>
    match k with
    | [h_k, w_k, d_k] =>
      match dec_shape_loop3d (h / h_k) (w / w_k) (d / d_k) rest with
      | Except.ok (shapes, ns) =>
          Except.ok ([h / h_k, w / w_k, d / d_k] :: shapes,
            (h / h_k) * (w / w_k) * (d / d_k) :: ns)
      | Except.error e => Except.error e
    | _ => Except.error "ValueError: not enough values to unpack"

/-- The `img_shape_list` / `n_size_list` / `img_min_shape` computation of
`NexToU_Decoder.__init__` (lines 279-310), transcribed from the decoder. -/
def dec_shape_schedule (conv_op : ConvOp) (patch_size : List ℕ)
    (strides : List (List ℕ)) :
    Except String (List (List ℕ) × List ℕ × List ℕ) :=
  let pool_op_kernel_sizes := strides.drop 1
  match conv_op with
  | ConvOp.conv2d =>
    match patch_size with
    | p0 :: p1 :: _ =>
      match dec_shape_loop2d p0 p1 pool_op_kernel_sizes with
      | Except.ok (shapes, ns) =>
        let img_shape_list := [p0, p1] :: shapes
        let n_size_list := p0 * p1 :: ns
        Except.ok (img_shape_list, n_size_list, img_shape_list.getLastD [])
      | Except.error e => Except.error e
    | _ => Except.error "IndexError"
  | ConvOp.conv3d =>
    match patch_size with
    | p0 :: p1 :: p2 :: _ =>
      match dec_shape_loop3d p0 p1 p2 pool_op_kernel_sizes with
      | Except.ok (shapes, ns) =>
        let img_shape_list := [p0, p1, p2] :: shapes
        let n_size_list := p0 * p1 * p2 :: ns
        Except.ok (img_shape_list, n_size_list, img_shape_list.getLastD [])
      | Except.error e => Except.error e
    | _ => Except.error "IndexError"
  | ConvOp.other => Except.error "ValueError: unknown convolution dimensionality"

/-! ## Pooled graph convolution (PoolDyGraphConv / PoolGrapher)

`PoolDyGraphConv.__init__` and `PoolGrapher.__init__` both compute `n`,
`n_small` and `pool_size` by the same loops; `PoolGrapher` additionally sets
`self.n = n // p_num`.  `PoolDyGraphConv.forward` max-pools the input with
kernel = stride = `pool_size`, builds the kNN graph and runs the graph
convolution on the pooled nodes (a node-count-preserving step), and
max-unpools the result; the pooling and unpooling are modelled at the level
of spatial shapes, using the torch formulas for the output sizes of
`MaxPool`/`MaxUnpool` with kernel = stride. -/

/-- `n = 1; for h in img_shape: n = n * h`. -/
def pool_n (img_shape : List ℕ) : ℕ :=
  img_shape.foldl (fun n h => n * h) 1

/-- `n_small = 1; for h_small in img_min_shape: n_small = n_small * h_small * 4`. -/
def pool_n_small (img_min_shape : List ℕ) : ℕ :=
  img_min_shape.foldl (fun n h => n * h * 4) 1

/-- `pool_size = [2 if h % 2 == 0 else 1 for h in img_shape] if n > n_small
else [1 for h in img_shape]`. -/
def pool_size_of (img_shape img_min_shape : List ℕ) : List ℕ :=
  if pool_n img_shape > pool_n_small img_min_shape then
    img_shape.map (fun h => if h % 2 = 0 then 2 else 1)
  else
    img_shape.map (fun _ => 1)

/-- `PoolGrapher.n`: `p_num = 1; for p in pool_size: p_num = p_num * p;
n = n // p_num`. -/
def poolGrapher_n (img_shape img_min_shape : List ℕ) : ℕ :=
  pool_n img_shape /
    (pool_size_of img_shape img_min_shape).foldl (fun p q => p * q) 1

/-- Spatial output size of `MaxPool` with kernel = stride = `pool_size`:
`floor((h - p) / p) + 1` per dimension. -/
def max_pool_out_spatial (pool_size spatial : List ℕ) : List ℕ :=
  List.zipWith (fun h p => (h - p) / p + 1) spatial pool_size

/-- Spatial output size of `MaxUnpool` with kernel = stride = `pool_size`:
`(h - 1) * p + p` per dimension. -/
def max_unpool_out_spatial (pool_size spatial : List ℕ) : List ℕ :=
  List.zipWith (fun h p => (h - 1) * p + p) spatial pool_size

/-- Shape-level `PoolDyGraphConv.forward`: `max_pool_input` with
`pool_size`, then the graph convolution (which keeps the pooled spatial
size), then `max_unpool_output` with the same `pool_size`. -/
def poolDyGraphConv_forward_spatial (img_shape img_min_shape spatial : List ℕ) :
    List ℕ :=
  let ps := pool_size_of img_shape img_min_shape
  max_unpool_out_spatial ps (max_pool_out_spatial ps spatial)

/-! ## k-nearest-neighbour parameter selection (SwinGNNBlocks / PoolGNNBlocks)

`SwinGNNBlocks.__init__` and `PoolGNNBlocks.__init__` contain the same
`max_num` / `max_k` / `min_k` / `k_list` / `max_dilation` computation, which
is transcribed once below. -/

/-- `k_candidate_list = [2, 4, 8, 16, 32]`. -/
def k_candidate_list : List ℕ := [2, 4, 8, 16, 32]

/-- Python `min(lst, key=lambda x: abs(x - target))`: the first element of
the list whose key is minimal (`Nat.dist` is `abs` of the integer
difference). -/
def min_by_absdiff (target : ℕ) : List ℕ → ℕ
  | [] => 0
  | x :: xs =>
    xs.foldl (fun best c =>
      if Nat.dist c target < Nat.dist best target then c else best) x

/-- `max_num = int(H_min * W_min // 2)` (Conv2d branch). -/
def gnn_max_num_2d (h_min w_min : ℕ) : ℕ := h_min * w_min / 2

/-- `max_num = int(H_min * W_min * D_min // 3)` (Conv3d branch). -/
def gnn_max_num_3d (h_min w_min d_min : ℕ) : ℕ := h_min * w_min * d_min / 3

/-- `max_k = min(k_candidate_list, key=lambda x: abs(x - max_num))`. -/
def gnn_max_k (max_num : ℕ) : ℕ := min_by_absdiff max_num k_candidate_list

/-- `min_k = max_num // (2 * 2)` (Conv2d branch). -/
def gnn_min_k_2d (max_num : ℕ) : ℕ := max_num / (2 * 2)

/-- `min_k = max_num // (2 * 2 * 2)` (Conv3d branch). -/
def gnn_min_k_3d (max_num : ℕ) : ℕ := max_num / (2 * 2 * 2)

/-- The `k_list` construction: the first five entries clamp `min_k`,
`min_k*2`, `min_k*2`, `min_k*4`, `min_k*8` at `max_k`; with
`pool_op_kernel_sizes_len >= 5` it is padded with `min(min_k*16, max_k)`,
otherwise truncated to `pool_op_kernel_sizes_len` entries. -/
def k_list_of (min_k max_k pool_op_kernel_sizes_len : ℕ) : List ℕ :=
  if 5 ≤ pool_op_kernel_sizes_len then
    [min min_k max_k, min (min_k * 2) max_k, min (min_k * 2) max_k,
     min (min_k * 4) max_k, min (min_k * 8) max_k] ++
      List.replicate (pool_op_kernel_sizes_len - 5) (min (min_k * 16) max_k)
  else
    ([min min_k max_k, min (min_k * 2) max_k, min (min_k * 2) max_k,
      min (min_k * 4) max_k, min (min_k * 8) max_k]).take
      pool_op_kernel_sizes_len

/-- `max_dilation = (prod of img_min_shape) // max(k_list)`. -/
def gnn_max_dilation (img_min_prod : ℕ) (k_list : List ℕ) : ℕ :=
  img_min_prod / k_list.foldl max 0

/-- The dilation arguments of the `SwinGrapher`/`PoolGrapher` blocks built in
the loop `for j in range(blocks_num_list[index])` with
`idx = j + sum(blocks_num_list[0:index])`: each block gets
`min(idx // 4 + 1, max_dilation)`. -/
def gnn_block_dilations (blocks_num_list : List ℕ) (index max_dilation : ℕ) :
    List ℕ :=
  (List.range (blocks_num_list.getD index 0)).map
    (fun j => min ((j + (blocks_num_list.take index).sum) / 4 + 1) max_dilation)

/-! ## Relative position embedding interpolation (`_get_relative_pos`)

`Grapher._get_relative_pos`, `SwinGrapher._get_relative_pos` and
`PoolGrapher._get_relative_pos` have the same body: return the stored
embedding unchanged when it is `None` or the product of the spatial sizes
equals `self.n`, otherwise bicubically interpolate it to
`(N, N // r^d)`; raise `NotImplementedError` for other conv ops.  The stored
embedding is abstract (`Option α`), and the result records whether it was
returned unchanged or interpolated and to which target shape. -/

/-- Result of `_get_relative_pos`: either the stored tensor unchanged, or an
interpolation of it to the recorded `(N, N_reduced)` size. -/
inductive RelPosResult (α : Type) where
  | unchanged : Option α → RelPosResult α
  | interpolated : α → ℕ → ℕ → RelPosResult α

/-- `Grapher._get_relative_pos(relative_pos, size_tuple)`. -/
def grapher_get_relative_pos {α : Type} (conv_op : ConvOp) (self_n self_r : ℕ)
    (relative_pos : Option α) (size_tuple : List ℕ) :
    Except String (RelPosResult α) :=
  match conv_op with
  | ConvOp.conv2d =>
    match size_tuple with
    | [H, W] =>
      match relative_pos with
      | none => Except.ok (RelPosResult.unchanged none)
      | some rp =>
        if H * W = self_n then Except.ok (RelPosResult.unchanged (some rp))
        else
          Except.ok (RelPosResult.interpolated rp (H * W)
            ((H * W) / (self_r * self_r)))
    | _ => Except.error "ValueError: not enough values to unpack"
  | ConvOp.conv3d =>
    match size_tuple with
    | [H, W, D] =>
      match relative_pos with
      | none => Except.ok (RelPosResult.unchanged none)
      | some rp =>
        if H * W * D = self_n then Except.ok (RelPosResult.unchanged (some rp))
        else
          Except.ok (RelPosResult.interpolated rp (H * W * D)
            ((H * W * D) / (self_r * self_r * self_r)))
    | _ => Except.error "ValueError: not enough values to unpack"
  | ConvOp.other => Except.error "NotImplementedError"

/-- `SwinGrapher._get_relative_pos(relative_pos, window_size_tuple)` (same
body as the Grapher version, with `self.n` the window volume). -/
def swinGrapher_get_relative_pos {α : Type} (conv_op : ConvOp)
    (self_n self_r : ℕ) (relative_pos : Option α) (size_tuple : List ℕ) :
    Except String (RelPosResult α) :=
  match conv_op with
  | ConvOp.conv2d =>
    match size_tuple with
    | [H, W] =>
      match relative_pos with
      | none => Except.ok (RelPosResult.unchanged none)
      | some rp =>
        if H * W = self_n then Except.ok (RelPosResult.unchanged (some rp))
        else
          Except.ok (RelPosResult.interpolated rp (H * W)
            ((H * W) / (self_r * self_r)))
    | _ => Except.error "ValueError: not enough values to unpack"
  | ConvOp.conv3d =>
    match size_tuple with
    | [S, H, W] =>
      match relative_pos with
      | none => Except.ok (RelPosResult.unchanged none)
      | some rp =>
        if S * H * W = self_n then Except.ok (RelPosResult.unchanged (some rp))
        else
          Except.ok (RelPosResult.interpolated rp (S * H * W)
            ((S * H * W) / (self_r * self_r * self_r)))
    | _ => Except.error "ValueError: not enough values to unpack"
  | ConvOp.other => Except.error "NotImplementedError"

/-- `PoolGrapher._get_relative_pos(relative_pos, size_tuple)` (same body as
the Grapher version, with `self.n` the pooled size). -/
def poolGrapher_get_relative_pos {α : Type} (conv_op : ConvOp)
    (self_n self_r : ℕ) (relative_pos : Option α) (size_tuple : List ℕ) :
    Except String (RelPosResult α) :=
  match conv_op with
  | ConvOp.conv2d =>
    match size_tuple with
    | [H, W] =>
      match relative_pos with
      | none => Except.ok (RelPosResult.unchanged none)
      | some rp =>
        if H * W = self_n then Except.ok (RelPosResult.unchanged (some rp))
        else
          Except.ok (RelPosResult.interpolated rp (H * W)
            ((H * W) / (self_r * self_r)))
    | _ => Except.error "ValueError: not enough values to unpack"
  | ConvOp.conv3d =>
    match size_tuple with
    | [S, H, W] =>
      match relative_pos with
      | none => Except.ok (RelPosResult.unchanged none)
      | some rp =>
        if S * H * W = self_n then Except.ok (RelPosResult.unchanged (some rp))
        else
          Except.ok (RelPosResult.interpolated rp (S * H * W)
            ((S * H * W) / (self_r * self_r * self_r)))
    | _ => Except.error "ValueError: not enough values to unpack"
  | ConvOp.other => Except.error "NotImplementedError"

/-! ## Theorems -/

/-- Bool-level equivalence used to split a distance list into the `<=
threshold` and `> threshold` counts. -/
theorem count_le_lt_split (t : ℚ) (l : List ℚ) :
    l.countP (fun d => decide (d ≤ t)) + l.countP (fun d => decide (t < d)) =
      l.length := by
  induction l with
  | nil => rfl
  | cons x xs ih =>
    rcases le_or_lt x t with h | h
    · simp [List.countP_cons, h, not_lt.mpr h]
      omega
    · simp [List.countP_cons, h, not_le.mpr h]
      omega

/-- C2: for same-shape masks whose extracted surfaces are non-empty,
`normalized_surface_dice` returns `(tp_a + tp_b) / (tp_a + tp_b + fp + fn)`
with `tp_a`, `tp_b`, `fp`, `fn` the threshold counts of the two directed
surface-distance lists; the value lies in `[0, 1]`; and a `None` spacing is
replaced by a spacing of 1 per dimension of `a`. -/
theorem c2_normalized_surface_dice_spec (α : Type)
    (surf : α → α → List ℚ → List ℚ) (ndim : α → ℕ) (a b : α) (t : ℚ)
    (spacing : Option (List ℚ))
    (ha : 0 < (surf a b (resolve_spacing ndim a spacing)).length)
    (hb : 0 < (surf b a (resolve_spacing ndim a spacing)).length) :
    (normalized_surface_dice surf ndim a b t spacing =
      (((surf a b (resolve_spacing ndim a spacing)).countP (fun d => decide (d ≤ t)) : ℚ) +
        ((surf b a (resolve_spacing ndim a spacing)).countP (fun d => decide (d ≤ t)) : ℚ)) /
      (((surf a b (resolve_spacing ndim a spacing)).countP (fun d => decide (d ≤ t)) : ℚ) +
        ((surf b a (resolve_spacing ndim a spacing)).countP (fun d => decide (d ≤ t)) : ℚ) +
        ((surf a b (resolve_spacing ndim a spacing)).countP (fun d => decide (t < d)) : ℚ) +
        ((surf b a (resolve_spacing ndim a spacing)).countP (fun d => decide (t < d)) : ℚ))) ∧
    0 ≤ normalized_surface_dice surf ndim a b t spacing ∧
    normalized_surface_dice surf ndim a b t spacing ≤ 1 ∧
    normalized_surface_dice surf ndim a b t none =
      normalized_surface_dice surf ndim a b t (some (List.replicate (ndim a) 1)) := by
  set sp := resolve_spacing ndim a spacing with hsp
  set ab := surf a b sp with hab
  set ba := surf b a sp with hba
  set TA := ab.countP (fun d => decide (d ≤ t)) with hTA
  set TB := ba.countP (fun d => decide (d ≤ t)) with hTB
  set FP := ab.countP (fun d => decide (t < d)) with hFP
  set FN := ba.countP (fun d => decide (t < d)) with hFN
  have hdef : normalized_surface_dice surf ndim a b t spacing =
      ((TA : ℚ) + (TB : ℚ)) / ((TA : ℚ) + (TB : ℚ) + (FP : ℚ) + (FN : ℚ)) := rfl
  have h1 : TA + FP = ab.length := count_le_lt_split t ab
  have h2 : TB + FN = ba.length := count_le_lt_split t ba
  have hnat : 0 < TA + TB + FP + FN := by omega
  have hden_pos : (0 : ℚ) < (TA : ℚ) + (TB : ℚ) + (FP : ℚ) + (FN : ℚ) := by
    exact_mod_cast hnat
  refine ⟨hdef, ?_, ?_, ?_⟩
  · rw [hdef]
    positivity
  · rw [hdef, div_le_one hden_pos]
    have hle : TA + TB ≤ TA + TB + FP + FN := by omega
    exact_mod_cast hle
  · rfl

/-- C3: swapping the two masks exchanges `tp_a` with `tp_b` and `fp` with
`fn`, so `normalized_surface_dice` is symmetric whenever the two masks have
the same number of dimensions (in particular whenever they have the same
shape). -/
theorem c3_normalized_surface_dice_symm (α : Type)
    (surf : α → α → List ℚ → List ℚ) (ndim : α → ℕ) (a b : α) (t : ℚ)
    (spacing : Option (List ℚ)) (hdim : ndim a = ndim b) :
    normalized_surface_dice surf ndim a b t spacing =
      normalized_surface_dice surf ndim b a t spacing := by
  have hsp : resolve_spacing ndim a spacing = resolve_spacing ndim b spacing := by
    cases spacing with
    | none => simp [resolve_spacing, hdim]
    | some s => rfl
  have expand : ∀ (x y : α) (spx : Option (List ℚ)),
      normalized_surface_dice surf ndim x y t spx =
        (((surf x y (resolve_spacing ndim x spx)).countP (fun d => decide (d ≤ t)) : ℚ) +
          ((surf y x (resolve_spacing ndim x spx)).countP (fun d => decide (d ≤ t)) : ℚ)) /
        (((surf x y (resolve_spacing ndim x spx)).countP (fun d => decide (d ≤ t)) : ℚ) +
          ((surf y x (resolve_spacing ndim x spx)).countP (fun d => decide (d ≤ t)) : ℚ) +
          ((surf x y (resolve_spacing ndim x spx)).countP (fun d => decide (t < d)) : ℚ) +
          ((surf y x (resolve_spacing ndim x spx)).countP (fun d => decide (t < d)) : ℚ)) :=
    fun _ _ _ => rfl
  rw [expand, expand, hsp]
  congr 1
  · ring
  · ring

/-- C4: with `n_swin_gnn_stages` fixed to 0, encoder stages below
`n_stages - 4` are pure residual stages, stages from `n_stages - 4` on are
residual + PoolGNN + SwinGNN, and the Swin-only middle branch is unreachable;
decoder stages 1..3 are residual + PoolGNN + SwinGNN, stages ≥ 4 are pure
residual, and its Swin-only middle branch is likewise unreachable. -/
theorem c4_stage_composition (n s : Int) :
    enc_n_conv_stages n = n - 4 ∧
    enc_no_pool_gnn_stage_num n = n - 4 ∧
    (s < n - 4 → encStageKind n s = EncStageKind.convOnly) ∧
    (n - 4 ≤ s → encStageKind n s = EncStageKind.convPoolSwin) ∧
    encStageKind n s ≠ EncStageKind.convSwin ∧
    (1 ≤ s → s ≤ 3 → decStageKind n s = DecStageKind.resPoolSwin) ∧
    (4 ≤ s → decStageKind n s = DecStageKind.resOnly) ∧
    decStageKind n s ≠ DecStageKind.resSwin := by
  unfold encStageKind decStageKind enc_n_conv_stages enc_no_pool_gnn_stage_num
    dec_n_conv_stages dec_no_pool_gnn_stage_num n_swin_gnn_stages
  refine ⟨by ring, rfl, ?_, ?_, ?_, ?_, ?_, ?_⟩ <;> split_ifs <;>
    first
      | rfl
      | (intro h; omega)
      | (intro h h2; omega)
      | (intro h h2; rfl)
      | (intro h; rfl)
      | simp_all
      | omega

/-- Witness for C4 at concrete stage counts. -/
theorem c4_stage_composition_witness :
    encStageKind 6 1 = EncStageKind.convOnly ∧
    encStageKind 6 3 = EncStageKind.convPoolSwin ∧
    decStageKind 6 2 = DecStageKind.resPoolSwin ∧
    decStageKind 6 4 = DecStageKind.resOnly :=
  ⟨(c4_stage_composition 6 1).2.2.1 (by decide),
   (c4_stage_composition 6 3).2.2.2.1 (by decide),
   (c4_stage_composition 6 2).2.2.2.2.2.1 (by decide) (by decide),
   (c4_stage_composition 6 4).2.2.2.2.2.2.1 (by decide)⟩

/-- Witness for C2 at a one-element distance list. -/
theorem c2_normalized_surface_dice_spec_witness :
    0 ≤ normalized_surface_dice (fun (_ _ : Bool) (_ : List ℚ) => [(1 : ℚ)])
        (fun _ => 2) true false 2 none ∧
    normalized_surface_dice (fun (_ _ : Bool) (_ : List ℚ) => [(1 : ℚ)])
        (fun _ => 2) true false 2 none ≤ 1 :=
  ⟨(c2_normalized_surface_dice_spec Bool (fun _ _ _ => [(1 : ℚ)]) (fun _ => 2)
      true false 2 none (by decide) (by decide)).2.1,
   (c2_normalized_surface_dice_spec Bool (fun _ _ _ => [(1 : ℚ)]) (fun _ => 2)
      true false 2 none (by decide) (by decide)).2.2.1⟩

/-- Witness for C3 at concrete masks of equal dimensionality. -/
theorem c3_normalized_surface_dice_symm_witness :
    normalized_surface_dice (fun (_ _ : Bool) (_ : List ℚ) => [(1 : ℚ)])
        (fun _ => 2) true false 2 none =
      normalized_surface_dice (fun (_ _ : Bool) (_ : List ℚ) => [(1 : ℚ)])
        (fun _ => 2) false true 2 none :=
  c3_normalized_surface_dice_symm Bool (fun _ _ _ => [(1 : ℚ)]) (fun _ => 2)
    true false 2 none rfl

/-- Positional digit extraction for a two-level blocked index. -/
theorem mixed_radix2 (b x y nh nw : ℕ) (hx : x < nh) (hy : y < nw) :
    ((b * nh + x) * nw + y) / (nh * nw) = b ∧
    ((b * nh + x) * nw + y) / nw % nh = x ∧
    ((b * nh + x) * nw + y) % nw = y := by
  have hnw : 0 < nw := lt_of_le_of_lt (Nat.zero_le _) hy
  have hnh : 0 < nh := lt_of_le_of_lt (Nat.zero_le _) hx
  have h1 : (b * nh + x) * nw + y = y + nw * (x + nh * b) := by ring
  have hdiv : ((b * nh + x) * nw + y) / nw = x + nh * b := by
    rw [h1, Nat.add_mul_div_left _ _ hnw, Nat.div_eq_of_lt hy, Nat.zero_add]
  refine ⟨?_, ?_, ?_⟩
  · rw [mul_comm nh nw, ← Nat.div_div_eq_div_mul, hdiv,
      Nat.add_mul_div_left _ _ hnh, Nat.div_eq_of_lt hx, Nat.zero_add]
  · rw [hdiv, Nat.add_mul_mod_self_left, Nat.mod_eq_of_lt hx]
  · rw [h1, Nat.add_mul_mod_self_left, Nat.mod_eq_of_lt hy]

/-- Positional digit extraction for a three-level blocked index. -/
theorem mixed_radix3 (b x y z ns nh nw : ℕ) (hx : x < ns) (hy : y < nh)
    (hz : z < nw) :
    (((b * ns + x) * nh + y) * nw + z) / (ns * (nh * nw)) = b ∧
    (((b * ns + x) * nh + y) * nw + z) / (nh * nw) % ns = x ∧
    (((b * ns + x) * nh + y) * nw + z) / nw % nh = y ∧
    (((b * ns + x) * nh + y) * nw + z) % nw = z := by
  have hnw : 0 < nw := lt_of_le_of_lt (Nat.zero_le _) hz
  have hnh : 0 < nh := lt_of_le_of_lt (Nat.zero_le _) hy
  have hns : 0 < ns := lt_of_le_of_lt (Nat.zero_le _) hx
  have h1 : ((b * ns + x) * nh + y) * nw + z = z + nw * (y + nh * (x + ns * b)) := by
    ring
  have hdivw : (((b * ns + x) * nh + y) * nw + z) / nw = y + nh * (x + ns * b) := by
    rw [h1, Nat.add_mul_div_left _ _ hnw, Nat.div_eq_of_lt hz, Nat.zero_add]
  have hdivhw : (((b * ns + x) * nh + y) * nw + z) / (nh * nw) = x + ns * b := by
    rw [mul_comm nh nw, ← Nat.div_div_eq_div_mul, hdivw,
      Nat.add_mul_div_left _ _ hnh, Nat.div_eq_of_lt hy, Nat.zero_add]
  refine ⟨?_, ?_, ?_, ?_⟩
  · rw [mul_comm ns (nh * nw), ← Nat.div_div_eq_div_mul, hdivhw,
      Nat.add_mul_div_left _ _ hns, Nat.div_eq_of_lt hx, Nat.zero_add]
  · rw [hdivhw, Nat.add_mul_mod_self_left, Nat.mod_eq_of_lt hx]
  · rw [hdivw, Nat.add_mul_mod_self_left, Nat.mod_eq_of_lt hy]
  · rw [h1, Nat.add_mul_mod_self_left, Nat.mod_eq_of_lt hz]

/-- Recombination of a Euclidean quotient and remainder. -/
theorem div_mul_add_mod (i p : ℕ) : i / p * p + i % p = i := by
  rw [mul_comm]
  exact Nat.div_add_mod i p

/-- C1: on a rank-4 tensor `(B, C, H, W)` (resp. rank-5 `(B, C, S, H, W)`)
whose spatial dimensions are divisible by the window sizes,
`window_reverse (window_partition x ws) ws (spatial dims of x)` restores
`x`: both calls succeed, the shape round-trips, and every in-bounds entry is
unchanged.  On any other rank both functions raise `NotImplementedError`. -/
theorem c1_window_partition_reverse_round_trip :
    (∀ (x : Tensor) (B C H W p1 p2 : ℕ), x.shape = [B, C, H, W] →
      0 < p1 → 0 < p2 → 0 < H → 0 < W → p1 ∣ H → p2 ∣ W →
      window_partition x [p1, p2] = Except.ok (window_partition_4d x [p1, p2]) ∧
      window_reverse (window_partition_4d x [p1, p2]) [p1, p2] [H, W] =
        Except.ok (window_reverse_4d (window_partition_4d x [p1, p2]) [p1, p2] [H, W]) ∧
      (window_reverse_4d (window_partition_4d x [p1, p2]) [p1, p2] [H, W]).shape =
        x.shape ∧
      (∀ b c i j : ℕ, i < H → j < W →
        (window_reverse_4d (window_partition_4d x [p1, p2]) [p1, p2] [H, W]).data
            [b, c, i, j] = x.data [b, c, i, j])) ∧
    (∀ (x : Tensor) (B C S H W p1 p2 p3 : ℕ), x.shape = [B, C, S, H, W] →
      0 < p1 → 0 < p2 → 0 < p3 → 0 < S → 0 < H → 0 < W →
      p1 ∣ S → p2 ∣ H → p3 ∣ W →
      window_partition x [p1, p2, p3] =
        Except.ok (window_partition_5d x [p1, p2, p3]) ∧
      window_reverse (window_partition_5d x [p1, p2, p3]) [p1, p2, p3] [S, H, W] =
        Except.ok (window_reverse_5d (window_partition_5d x [p1, p2, p3])
          [p1, p2, p3] [S, H, W]) ∧
      (window_reverse_5d (window_partition_5d x [p1, p2, p3]) [p1, p2, p3]
          [S, H, W]).shape = x.shape ∧
      (∀ b c i j k : ℕ, i < S → j < H → k < W →
        (window_reverse_5d (window_partition_5d x [p1, p2, p3]) [p1, p2, p3]
            [S, H, W]).data [b, c, i, j, k] = x.data [b, c, i, j, k])) ∧
    (∀ (x : Tensor) (ws st : List ℕ), x.shape.length ≠ 4 → x.shape.length ≠ 5 →
      window_partition x ws = Except.error "NotImplementedError" ∧
      window_reverse x ws st = Except.error "NotImplementedError") := by
  refine ⟨?_, ?_, ?_⟩
  · rintro ⟨sh, dat⟩ B C H W p1 p2 hshape hp1 hp2 hH hW hdvd1 hdvd2
    simp only [Tensor.mk.injEq] at hshape
    subst hshape
    have hnh : 0 < H / p1 := Nat.div_pos (Nat.le_of_dvd hH hdvd1) hp1
    have hnw : 0 < W / p2 := Nat.div_pos (Nat.le_of_dvd hW hdvd2) hp2
    refine ⟨rfl, rfl, ?_, ?_⟩
    · show [B * (H / p1) * (W / p2) / (H / p1 * (W / p2)), C, H, W] = [B, C, H, W]
      rw [mul_assoc, Nat.mul_div_cancel _ (Nat.mul_pos hnh hnw)]
    · intro b c i j hi hj
      have hi' : i / p1 < H / p1 := Nat.div_lt_div_of_lt_of_dvd hdvd1 hi
      have hj' : j / p2 < W / p2 := Nat.div_lt_div_of_lt_of_dvd hdvd2 hj
      obtain ⟨hq1, hq2, hq3⟩ := mixed_radix2 b (i / p1) (j / p2) (H / p1) (W / p2) hi' hj'
      show dat [((b * (H / p1) + i / p1) * (W / p2) + j / p2) / (H / p1 * (W / p2)), c,
          (((b * (H / p1) + i / p1) * (W / p2) + j / p2) / (W / p2) % (H / p1)) * p1 + i % p1,
          (((b * (H / p1) + i / p1) * (W / p2) + j / p2) % (W / p2)) * p2 + j % p2] =
        dat [b, c, i, j]
      rw [hq1, hq2, hq3, div_mul_add_mod, div_mul_add_mod]
  · rintro ⟨sh, dat⟩ B C S H W p1 p2 p3 hshape hp1 hp2 hp3 hS hH hW hdvd1 hdvd2 hdvd3
    simp only [Tensor.mk.injEq] at hshape
    subst hshape
    have hns : 0 < S / p1 := Nat.div_pos (Nat.le_of_dvd hS hdvd1) hp1
    have hnh : 0 < H / p2 := Nat.div_pos (Nat.le_of_dvd hH hdvd2) hp2
    have hnw : 0 < W / p3 := Nat.div_pos (Nat.le_of_dvd hW hdvd3) hp3
    refine ⟨rfl, rfl, ?_, ?_⟩
    · show [B * (S / p1) * (H / p2) * (W / p3) / (S / p1 * (H / p2 * (W / p3))), C,
          S, H, W] = [B, C, S, H, W]
      rw [mul_assoc, mul_assoc, Nat.mul_div_cancel _
        (Nat.mul_pos hns (Nat.mul_pos hnh hnw))]
    · intro b c i j k hi hj hk
      have hi' : i / p1 < S / p1 := Nat.div_lt_div_of_lt_of_dvd hdvd1 hi
      have hj' : j / p2 < H / p2 := Nat.div_lt_div_of_lt_of_dvd hdvd2 hj
      have hk' : k / p3 < W / p3 := Nat.div_lt_div_of_lt_of_dvd hdvd3 hk
      obtain ⟨hq1, hq2, hq3, hq4⟩ := mixed_radix3 b (i / p1) (j / p2) (k / p3)
        (S / p1) (H / p2) (W / p3) hi' hj' hk'
      show dat [(((b * (S / p1) + i / p1) * (H / p2) + j / p2) * (W / p3) + k / p3) /
            (S / p1 * (H / p2 * (W / p3))), c,
          ((((b * (S / p1) + i / p1) * (H / p2) + j / p2) * (W / p3) + k / p3) /
            (H / p2 * (W / p3)) % (S / p1)) * p1 + i % p1,
          ((((b * (S / p1) + i / p1) * (H / p2) + j / p2) * (W / p3) + k / p3) /
            (W / p3) % (H / p2)) * p2 + j % p2,
          ((((b * (S / p1) + i / p1) * (H / p2) + j / p2) * (W / p3) + k / p3) %
            (W / p3)) * p3 + k % p3] =
        dat [b, c, i, j, k]
      rw [hq1, hq2, hq3, hq4, div_mul_add_mod, div_mul_add_mod, div_mul_add_mod]
  · intro x ws st h4 h5
    constructor
    · simp [window_partition, h4, h5]
    · simp [window_reverse, h4, h5]

/-- Witness for C1: a 2×2 image with 2×2 windows, and a rank-3 tensor that
hits the NotImplementedError branch. -/
theorem c1_window_partition_reverse_round_trip_witness :
    ((window_reverse_4d (window_partition_4d ⟨[1, 1, 2, 2], fun _ => 7⟩ [2, 2])
        [2, 2] [2, 2]).data [0, 0, 1, 1] =
      Tensor.data ⟨[1, 1, 2, 2], fun _ => 7⟩ [0, 0, 1, 1]) ∧
    window_partition ⟨[3, 2, 2], fun _ => 0⟩ [2, 2] =
      Except.error "NotImplementedError" :=
  ⟨((c1_window_partition_reverse_round_trip.1 ⟨[1, 1, 2, 2], fun _ => 7⟩ 1 1 2 2 2 2
      rfl (by decide) (by decide) (by decide) (by decide) (by decide)
      (by decide)).2.2.2 0 0 1 1 (by decide) (by decide)),
   (c1_window_partition_reverse_round_trip.2.2 ⟨[3, 2, 2], fun _ => 0⟩ [2, 2] []
      (by decide) (by decide)).1⟩

/-- C10: `build_network_architecture` hardcodes the class name `'NexToU'`,
which is a key of the mapping, so the assert always passes and the result is
always the NexToU class, whatever `architecture_class_name` was passed. -/
theorem c10_build_network_architecture_always_nextou (architecture_class_name : String) :
    build_network_architecture architecture_class_name =
      Except.ok NetworkClass.nexToU := rfl

/-- The encoder and decoder 2D shape loops are the same function. -/
theorem shape_loop2d_eq (ks : List (List ℕ)) :
    ∀ h w, enc_shape_loop2d h w ks = dec_shape_loop2d h w ks := by
  induction ks with
  | nil => intro h w; rfl
  | cons k rest ih =>
    intro h w
    cases k with
    | nil => rfl
    | cons u k1 =>
      cases k1 with
      | nil => rfl
      | cons v k2 =>
        cases k2 with
        | nil =>
          simp only [enc_shape_loop2d, dec_shape_loop2d]
          rw [ih]
        | cons x k3 => rfl

/-- The encoder and decoder 3D shape loops are the same function. -/
theorem shape_loop3d_eq (ks : List (List ℕ)) :
    ∀ h w d, enc_shape_loop3d h w d ks = dec_shape_loop3d h w d ks := by
  induction ks with
  | nil => intro h w d; rfl
  | cons k rest ih =>
    intro h w d
    cases k with
    | nil => rfl
    | cons u k1 =>
      cases k1 with
      | nil => rfl
      | cons v k2 =>
        cases k2 with
        | nil => rfl
        | cons x k3 =>
          cases k3 with
          | nil =>
            simp only [enc_shape_loop3d, dec_shape_loop3d]
            rw [ih]
          | cons y k4 => rfl

/-- C5: for every `conv_op`, `patch_size` and `strides`, the
`img_shape_list`, `n_size_list` and `img_min_shape` computed in
`NexToU_Encoder.__init__` coincide with those computed in
`NexToU_Decoder.__init__`. -/
theorem c5_encoder_decoder_shape_schedule_agree (conv_op : ConvOp)
    (patch_size : List ℕ) (strides : List (List ℕ)) :
    enc_shape_schedule conv_op patch_size strides =
      dec_shape_schedule conv_op patch_size strides := by
  cases conv_op with
  | conv2d =>
    cases patch_size with
    | nil => rfl
    | cons p0 t1 =>
      cases t1 with
      | nil => rfl
      | cons p1 t2 =>
        simp only [enc_shape_schedule, dec_shape_schedule]
        rw [shape_loop2d_eq]
  | conv3d =>
    cases patch_size with
    | nil => rfl
    | cons p0 t1 =>
      cases t1 with
      | nil => rfl
      | cons p1 t2 =>
        cases t2 with
        | nil => rfl
        | cons p2 t3 =>
          simp only [enc_shape_schedule, dec_shape_schedule]
          rw [shape_loop3d_eq]
  | other => rfl

/-- `getD` of a list after dropping the head. -/
theorem getD_drop_one {α : Type} (l : List α) (i : ℕ) (d : α) :
    (l.drop 1).getD i d = l.getD (i + 1) d := by
  cases l <;> rfl

/-- Invariant of the encoder 2D loop: on well-formed stride entries it
succeeds, produces lists as long as its input, and each produced shape is the
previous shape divided componentwise by the matching stride entry, with the
matching size being its product. -/
theorem enc_shape_loop2d_spec (ks : List (List ℕ)) :
    ∀ h w, (∀ k ∈ ks, ∃ u v, k = [u, v]) →
    ∃ shapes ns, enc_shape_loop2d h w ks = Except.ok (shapes, ns) ∧
      shapes.length = ks.length ∧ ns.length = ks.length ∧
      (∀ i, i < ks.length →
        shapes.getD i [] = List.zipWith (fun x y => x / y)
          (([h, w] :: shapes).getD i []) (ks.getD i []) ∧
        ns.getD i 0 = (shapes.getD i []).prod) := by
  induction ks with
  | nil =>
    intro h w _
    exact ⟨[], [], rfl, rfl, rfl, fun i hi => absurd hi (by simp)⟩
  | cons k rest ih =>
    intro h w hwf
    obtain ⟨u, v, rfl⟩ := hwf k (List.mem_cons_self k _)
    obtain ⟨shapes, ns, hloop, hlen1, hlen2, hrec⟩ :=
      ih (h / u) (w / v) (fun k hk => hwf k (List.mem_cons_of_mem _ hk))
    refine ⟨[h / u, w / v] :: shapes, (h / u) * (w / v) :: ns, ?_, ?_, ?_, ?_⟩
    · simp only [enc_shape_loop2d, hloop]
    · simp [hlen1]
    · simp [hlen2]
    · intro i hi
      cases i with
      | zero =>
        refine ⟨rfl, ?_⟩
        simp
      | succ i =>
        have hi' : i < rest.length := by simpa using hi
        obtain ⟨h1, h2⟩ := hrec i hi'
        refine ⟨?_, ?_⟩
        · simpa using h1
        · simpa using h2

/-- Invariant of the encoder 3D loop, mirroring `enc_shape_loop2d_spec`. -/
theorem enc_shape_loop3d_spec (ks : List (List ℕ)) :
    ∀ h w d, (∀ k ∈ ks, ∃ u v x, k = [u, v, x]) →
    ∃ shapes ns, enc_shape_loop3d h w d ks = Except.ok (shapes, ns) ∧
      shapes.length = ks.length ∧ ns.length = ks.length ∧
      (∀ i, i < ks.length →
        shapes.getD i [] = List.zipWith (fun x y => x / y)
          (([h, w, d] :: shapes).getD i []) (ks.getD i []) ∧
        ns.getD i 0 = (shapes.getD i []).prod) := by
  induction ks with
  | nil =>
    intro h w d _
    exact ⟨[], [], rfl, rfl, rfl, fun i hi => absurd hi (by simp)⟩
  | cons k rest ih =>
    intro h w d hwf
    obtain ⟨u, v, x, rfl⟩ := hwf k (List.mem_cons_self k _)
    obtain ⟨shapes, ns, hloop, hlen1, hlen2, hrec⟩ :=
      ih (h / u) (w / v) (d / x) (fun k hk => hwf k (List.mem_cons_of_mem _ hk))
    refine ⟨[h / u, w / v, d / x] :: shapes,
      (h / u) * (w / v) * (d / x) :: ns, ?_, ?_, ?_, ?_⟩
    · simp only [enc_shape_loop3d, hloop]
    · simp [hlen1]
    · simp [hlen2]
    · intro i hi
      cases i with
      | zero =>
        refine ⟨rfl, ?_⟩
        simp [mul_assoc]
      | succ i =>
        have hi' : i < rest.length := by simpa using hi
        obtain ⟨h1, h2⟩ := hrec i hi'
        refine ⟨?_, ?_⟩
        · simpa using h1
        · simpa using h2

/-- C6: with `len(strides) == n_stages` (at least 1) and a 2D or 3D
`conv_op`, the encoder's `img_shape_list` has `n_stages` entries, starts at
`patch_size`, steps by componentwise floor division by `strides[i+1]`,
`n_size_list` holds the componentwise products, and `img_min_shape` is the
last entry; any other `conv_op` is rejected with `ValueError`. -/
theorem c6_encoder_shape_schedule :
    (∀ (a b : ℕ) (strides : List (List ℕ)) (n_stages : ℕ),
      strides.length = n_stages → 1 ≤ n_stages →
      (∀ k ∈ strides.drop 1, ∃ u v, k = [u, v]) →
      ∃ isl nsl ims,
        enc_shape_schedule ConvOp.conv2d [a, b] strides =
          Except.ok (isl, nsl, ims) ∧
        isl.length = n_stages ∧
        isl.getD 0 [] = [a, b] ∧
        (∀ i, i + 1 < n_stages →
          isl.getD (i + 1) [] = List.zipWith (fun x y => x / y)
            (isl.getD i []) (strides.getD (i + 1) [])) ∧
        (∀ i, i < n_stages → nsl.getD i 0 = (isl.getD i []).prod) ∧
        ims = isl.getLastD []) ∧
    (∀ (a b c : ℕ) (strides : List (List ℕ)) (n_stages : ℕ),
      strides.length = n_stages → 1 ≤ n_stages →
      (∀ k ∈ strides.drop 1, ∃ u v x, k = [u, v, x]) →
      ∃ isl nsl ims,
        enc_shape_schedule ConvOp.conv3d [a, b, c] strides =
          Except.ok (isl, nsl, ims) ∧
        isl.length = n_stages ∧
        isl.getD 0 [] = [a, b, c] ∧
        (∀ i, i + 1 < n_stages →
          isl.getD (i + 1) [] = List.zipWith (fun x y => x / y)
            (isl.getD i []) (strides.getD (i + 1) [])) ∧
        (∀ i, i < n_stages → nsl.getD i 0 = (isl.getD i []).prod) ∧
        ims = isl.getLastD []) ∧
    (∀ (patch_size : List ℕ) (strides : List (List ℕ)),
      enc_shape_schedule ConvOp.other patch_size strides =
        Except.error "ValueError: unknown convolution dimensionality") := by
  refine ⟨?_, ?_, fun _ _ => rfl⟩
  · intro a b strides n_stages hlen hpos hwf
    obtain ⟨shapes, ns, hloop, hlen1, hlen2, hrec⟩ :=
      enc_shape_loop2d_spec (strides.drop 1) a b hwf
    have hdlen : (strides.drop 1).length = n_stages - 1 := by
      simp [hlen]
    refine ⟨[a, b] :: shapes, a * b :: ns, ([a, b] :: shapes).getLastD [], ?_,
      ?_, rfl, ?_, ?_, rfl⟩
    · simp only [enc_shape_schedule, hloop]
    · simp only [List.length_cons, hlen1, hdlen]
      omega
    · intro i hi
      have hi' : i < (strides.drop 1).length := by omega
      obtain ⟨h1, _⟩ := hrec i hi'
      have hstep : ([a, b] :: shapes).getD (i + 1) [] = shapes.getD i [] := rfl
      rw [hstep, h1, ← getD_drop_one]
    · intro i hi
      cases i with
      | zero => simp
      | succ i =>
        have hi' : i < (strides.drop 1).length := by omega
        obtain ⟨_, h2⟩ := hrec i hi'
        simpa using h2
  · intro a b c strides n_stages hlen hpos hwf
    obtain ⟨shapes, ns, hloop, hlen1, hlen2, hrec⟩ :=
      enc_shape_loop3d_spec (strides.drop 1) a b c hwf
    have hdlen : (strides.drop 1).length = n_stages - 1 := by
      simp [hlen]
    refine ⟨[a, b, c] :: shapes, a * b * c :: ns,
      ([a, b, c] :: shapes).getLastD [], ?_, ?_, rfl, ?_, ?_, rfl⟩
    · simp only [enc_shape_schedule, hloop]
    · simp only [List.length_cons, hlen1, hdlen]
      omega
    · intro i hi
      have hi' : i < (strides.drop 1).length := by omega
      obtain ⟨h1, _⟩ := hrec i hi'
      have hstep : ([a, b, c] :: shapes).getD (i + 1) [] = shapes.getD i [] := rfl
      rw [hstep, h1, ← getD_drop_one]
    · intro i hi
      cases i with
      | zero => simp [mul_assoc]
      | succ i =>
        have hi' : i < (strides.drop 1).length := by omega
        obtain ⟨_, h2⟩ := hrec i hi'
        simpa using h2

/-- Witness for C6 on a 2-stage 2D configuration. -/
theorem c6_encoder_shape_schedule_witness :
    ∃ isl nsl ims,
      enc_shape_schedule ConvOp.conv2d [8, 6] [[1, 1], [2, 2]] =
        Except.ok (isl, nsl, ims) ∧
      isl.length = 2 ∧
      isl.getD 0 [] = [8, 6] ∧
      (∀ i, i + 1 < 2 →
        isl.getD (i + 1) [] = List.zipWith (fun x y => x / y)
          (isl.getD i []) ([[1, 1], [2, 2]].getD (i + 1) [])) ∧
      (∀ i, i < 2 → nsl.getD i 0 = (isl.getD i []).prod) ∧
      ims = isl.getLastD [] :=
  c6_encoder_shape_schedule.1 8 6 [[1, 1], [2, 2]] 2 rfl (by decide)
    (by
      intro k hk
      simp only [List.drop, List.mem_cons, List.not_mem_nil, or_false] at hk
      exact ⟨2, 2, hk⟩)

/-- The plain product loop of `PoolDyGraphConv.__init__`. -/
theorem foldl_mul_eq_prod : ∀ (l : List ℕ) (a : ℕ),
    l.foldl (fun n h => n * h) a = a * l.prod := by
  intro l
  induction l with
  | nil => intro a; simp
  | cons h t ih =>
    intro a
    simp only [List.foldl_cons, List.prod_cons, ih (a * h)]
    ring

/-- The `n_small` loop multiplies each entry and a factor 4 per entry. -/
theorem foldl_mul4_eq_prod : ∀ (l : List ℕ) (a : ℕ),
    l.foldl (fun n h => n * h * 4) a = a * l.prod * 4 ^ l.length := by
  intro l
  induction l with
  | nil => intro a; simp
  | cons h t ih =>
    intro a
    simp only [List.foldl_cons, List.prod_cons, ih (a * h * 4), List.length_cons,
      pow_succ]
    ring

/-- `getD` through `map` below the length. -/
theorem getD_map_of_lt (f : ℕ → ℕ) : ∀ (l : List ℕ) (i : ℕ), i < l.length →
    (l.map f).getD i 1 = f (l.getD i 0) := by
  intro l
  induction l with
  | nil => intro i hi; exact absurd hi (by simp)
  | cons h t ih =>
    intro i hi
    cases i with
    | zero => rfl
    | succ i => exact ih i (by simpa using hi)

/-- Pool/unpool round trip and node-count preservation, proved once for any
per-dimension pool-size function with the three pointwise facts of the
`pool_size` candidates. -/
theorem pool_unpool_round_trip (f : ℕ → ℕ)
    (hU : ∀ h, 0 < h → ((h - f h) / f h + 1 - 1) * f h + f h = h)
    (hP : ∀ h, 0 < h → (h - f h) / f h + 1 = h / f h)
    (hD : ∀ h, 0 < h → f h ∣ h) :
    ∀ l : List ℕ, (∀ h ∈ l, 0 < h) →
      max_unpool_out_spatial (l.map f) (max_pool_out_spatial (l.map f) l) = l ∧
      (max_pool_out_spatial (l.map f) l).prod * (l.map f).prod = l.prod := by
  intro l hl
  induction l with
  | nil => exact ⟨rfl, by simp [max_pool_out_spatial]⟩
  | cons h t ih =>
    have hh := hl h (List.mem_cons_self h _)
    obtain ⟨ih1, ih2⟩ := ih (fun x hx => hl x (List.mem_cons_of_mem _ hx))
    constructor
    · show (((h - f h) / f h + 1 - 1) * f h + f h) ::
          max_unpool_out_spatial (t.map f)
            (max_pool_out_spatial (t.map f) t) = h :: t
      rw [hU h hh, ih1]
    · show (((h - f h) / f h + 1) :: max_pool_out_spatial (t.map f) t).prod *
          (f h :: t.map f).prod = (h :: t).prod
      have hhead : ((h - f h) / f h + 1) * f h = h := by
        rw [hP h hh]
        exact Nat.div_mul_cancel (hD h hh)
      rw [List.prod_cons, List.prod_cons, List.prod_cons]
      calc ((h - f h) / f h + 1) *
            (max_pool_out_spatial (t.map f) t).prod * (f h * (t.map f).prod) =
          (((h - f h) / f h + 1) * f h) *
            ((max_pool_out_spatial (t.map f) t).prod * (t.map f).prod) := by
            ring
        _ = h * t.prod := by
            rw [hhead, ih2]

/-- C7: `n_small = prod(img_min_shape) * 4^d`; `pool_size[i]` is 2 exactly
when `n > n_small` and `img_shape[i]` is even, else 1; `PoolGrapher.n =
prod(img_shape) // prod(pool_size)`; and for a positive `img_shape`,
`PoolDyGraphConv.forward` max-pools to `PoolGrapher.n` spatial positions
(the node count of the kNN graph) and max-unpools back to the pre-pooling
spatial size. -/
theorem c7_pool_graph_conv (img_shape img_min_shape : List ℕ) :
    pool_n img_shape = img_shape.prod ∧
    pool_n_small img_min_shape =
      img_min_shape.prod * 4 ^ img_min_shape.length ∧
    (∀ i, i < img_shape.length →
      (pool_size_of img_shape img_min_shape).getD i 1 =
        if pool_n img_shape > pool_n_small img_min_shape ∧
            (img_shape.getD i 0) % 2 = 0 then 2 else 1) ∧
    poolGrapher_n img_shape img_min_shape =
      img_shape.prod / (pool_size_of img_shape img_min_shape).prod ∧
    ((∀ h ∈ img_shape, 0 < h) →
      poolDyGraphConv_forward_spatial img_shape img_min_shape img_shape =
        img_shape ∧
      (max_pool_out_spatial (pool_size_of img_shape img_min_shape)
          img_shape).prod = poolGrapher_n img_shape img_min_shape) := by
  have hn : pool_n img_shape = img_shape.prod := by
    rw [pool_n, foldl_mul_eq_prod, one_mul]
  have hns : pool_n_small img_min_shape =
      img_min_shape.prod * 4 ^ img_min_shape.length := by
    rw [pool_n_small, foldl_mul4_eq_prod, one_mul]
  have hgn : poolGrapher_n img_shape img_min_shape =
      img_shape.prod / (pool_size_of img_shape img_min_shape).prod := by
    rw [poolGrapher_n, foldl_mul_eq_prod, one_mul, hn]
  refine ⟨hn, hns, ?_, hgn, ?_⟩
  · intro i hi
    by_cases hc : pool_n img_shape > pool_n_small img_min_shape
    · rw [pool_size_of, if_pos hc, getD_map_of_lt _ _ _ hi]
      by_cases he : (img_shape.getD i 0) % 2 = 0
      · rw [if_pos he, if_pos ⟨hc, he⟩]
      · rw [if_neg he, if_neg (fun hand => he hand.2)]
    · rw [pool_size_of, if_neg hc, getD_map_of_lt _ _ _ hi,
        if_neg (fun hand => hc hand.1)]
  · intro hpos
    have hround : ∀ f : ℕ → ℕ,
        (∀ h, 0 < h → ((h - f h) / f h + 1 - 1) * f h + f h = h) →
        (∀ h, 0 < h → (h - f h) / f h + 1 = h / f h) →
        (∀ h, 0 < h → f h ∣ h) →
        pool_size_of img_shape img_min_shape = img_shape.map f →
        poolDyGraphConv_forward_spatial img_shape img_min_shape img_shape =
          img_shape ∧
        (max_pool_out_spatial (pool_size_of img_shape img_min_shape)
            img_shape).prod = poolGrapher_n img_shape img_min_shape := by
      intro f hU hP hD hps
      obtain ⟨h1, h2⟩ := pool_unpool_round_trip f hU hP hD img_shape hpos
      have hppos : 0 < (img_shape.map f).prod := by
        apply List.prod_pos
        intro x hx
        obtain ⟨y, hy, rfl⟩ := List.mem_map.mp hx
        have := hD y (hpos y hy)
        have hy0 := hpos y hy
        rcases Nat.eq_zero_or_pos (f y) with h0 | h0
        · rw [h0] at this
          omega
        · exact h0
      refine ⟨?_, ?_⟩
      · rw [poolDyGraphConv_forward_spatial, hps]
        exact h1
      · rw [hgn, hps, ← h2]
        exact (Nat.mul_div_cancel _ hppos).symm
    rcases lt_or_ge (pool_n_small img_min_shape) (pool_n img_shape) with hc | hc
    · exact hround (fun h => if h % 2 = 0 then 2 else 1)
        (fun h hh => by by_cases he : h % 2 = 0 <;> simp [he] <;> omega)
        (fun h hh => by by_cases he : h % 2 = 0 <;> simp [he] <;> omega)
        (fun h hh => by
          by_cases he : h % 2 = 0
          · simp only [he, if_pos]
            exact Nat.dvd_of_mod_eq_zero he
          · simp [he])
        (by rw [pool_size_of, if_pos hc])
    · exact hround (fun _ => 1)
        (fun h hh => by simp; omega)
        (fun h hh => by simp; omega)
        (fun h hh => one_dvd h)
        (by rw [pool_size_of, if_neg (not_lt.mpr hc)])

/-- Witness for C7 on a concrete shape pair. -/
theorem c7_pool_graph_conv_witness :
    poolDyGraphConv_forward_spatial [4, 6] [2, 2] [4, 6] = [4, 6] ∧
    (max_pool_out_spatial (pool_size_of [4, 6] [2, 2]) [4, 6]).prod =
      poolGrapher_n [4, 6] [2, 2] :=
  (c7_pool_graph_conv [4, 6] [2, 2]).2.2.2.2 (by decide)

/-- The fold implementing Python's `min(..., key=...)`: the result is the
seed or a list element, its key is at most the seed's key, and its key is at
most every listed element's key.  Ties keep the earlier element, as Python's
`min` does. -/
theorem foldl_argmin_spec (target : ℕ) : ∀ (xs : List ℕ) (b : ℕ),
    (xs.foldl (fun best c =>
        if Nat.dist c target < Nat.dist best target then c else best) b = b ∨
      xs.foldl (fun best c =>
        if Nat.dist c target < Nat.dist best target then c else best) b ∈ xs) ∧
    Nat.dist (xs.foldl (fun best c =>
        if Nat.dist c target < Nat.dist best target then c else best) b) target ≤
      Nat.dist b target ∧
    (∀ c ∈ xs, Nat.dist (xs.foldl (fun best c =>
        if Nat.dist c target < Nat.dist best target then c else best) b) target ≤
      Nat.dist c target) := by
  intro xs
  induction xs with
  | nil =>
    intro b
    exact ⟨Or.inl rfl, le_refl _, fun c hc => absurd hc (by simp)⟩
  | cons x xs ih =>
    intro b
    simp only [List.foldl_cons]
    by_cases h : Nat.dist x target < Nat.dist b target
    · rw [if_pos h]
      obtain ⟨hmem, hle, hall⟩ := ih x
      refine ⟨?_, le_trans hle (le_of_lt h), ?_⟩
      · rcases hmem with h1 | h1
        · exact Or.inr (by rw [h1]; exact List.mem_cons_self x xs)
        · exact Or.inr (List.mem_cons_of_mem _ h1)
      · intro c hc
        rcases List.mem_cons.mp hc with rfl | hc2
        · exact hle
        · exact hall c hc2
    · rw [if_neg h]
      obtain ⟨hmem, hle, hall⟩ := ih b
      refine ⟨?_, hle, ?_⟩
      · rcases hmem with h1 | h1
        · exact Or.inl h1
        · exact Or.inr (List.mem_cons_of_mem _ h1)
      · intro c hc
        rcases List.mem_cons.mp hc with rfl | hc2
        · exact le_trans hle (not_lt.mp h)
        · exact hall c hc2

/-- On a non-empty list, `min_by_absdiff` returns a member whose key is
minimal. -/
theorem min_by_absdiff_spec (target x : ℕ) (xs : List ℕ) :
    min_by_absdiff target (x :: xs) ∈ x :: xs ∧
    ∀ c ∈ x :: xs,
      Nat.dist (min_by_absdiff target (x :: xs)) target ≤ Nat.dist c target := by
  obtain ⟨hmem, hle, hall⟩ := foldl_argmin_spec target xs x
  simp only [min_by_absdiff]
  refine ⟨?_, ?_⟩
  · rcases hmem with h1 | h1
    · rw [h1]
      exact List.mem_cons_self x xs
    · exact List.mem_cons_of_mem _ h1
  · intro c hc
    rcases List.mem_cons.mp hc with rfl | hc2
    · exact hle
    · exact hall c hc2

/-- `k_list` always has `pool_op_kernel_sizes_len` entries. -/
theorem k_list_of_length (min_k max_k len : ℕ) :
    (k_list_of min_k max_k len).length = len := by
  unfold k_list_of
  split_ifs with h
  · simp only [List.length_append, List.length_cons, List.length_nil,
      List.length_replicate]
    omega
  · rw [List.length_take]
    simp only [List.length_cons, List.length_nil]
    omega

/-- Every `k_list` entry is `min(min_k * 2^j, max_k)` for some `j ≤ 4`. -/
theorem k_list_of_mem (min_k max_k len : ℕ) :
    ∀ k ∈ k_list_of min_k max_k len,
      ∃ j, j ≤ 4 ∧ k = min (min_k * 2 ^ j) max_k := by
  have base : ∀ k2 ∈ [min min_k max_k, min (min_k * 2) max_k,
      min (min_k * 2) max_k, min (min_k * 4) max_k, min (min_k * 8) max_k],
      ∃ j, j ≤ 4 ∧ k2 = min (min_k * 2 ^ j) max_k := by
    intro k2 hk2
    simp only [List.mem_cons, List.not_mem_nil, or_false] at hk2
    rcases hk2 with rfl | rfl | rfl | rfl | rfl
    · exact ⟨0, by omega, by norm_num⟩
    · exact ⟨1, by omega, by norm_num⟩
    · exact ⟨1, by omega, by norm_num⟩
    · exact ⟨2, by omega, by norm_num⟩
    · exact ⟨3, by omega, by norm_num⟩
  intro k hk
  unfold k_list_of at hk
  split_ifs at hk with h
  · rcases List.mem_append.mp hk with h1 | h1
    · exact base k h1
    · have h2 := List.eq_of_mem_replicate h1
      exact ⟨4, le_refl 4, by rw [h2]; norm_num⟩
  · exact base k (List.take_subset _ _ hk)

/-- `getD` on a mapped range below the bound. -/
theorem getD_map_range (f : ℕ → ℕ) (n j : ℕ) (hj : j < n) :
    ((List.range n).map f).getD j 0 = f j := by
  rw [List.getD_eq_getElem?_getD, List.getElem?_map, List.getElem?_range hj]
  rfl

/-- C8: `max_k` is the `k_candidate_list` element closest to `max_num`
(with `max_num = prod(img_min_shape) // 2` in 2D and `// 3` in 3D);
`k_list` has exactly `pool_op_kernel_sizes_len` entries, each of the form
`min(min_k * 2^j, max_k)` and hence at most `max_k`; and block `j` of a
GNN stage receives dilation `min(idx // 4 + 1, max_dilation)` with
`max_dilation = prod(img_min_shape) // max(k_list)`. -/
theorem c8_knn_parameter_selection :
    (∀ max_num : ℕ,
      gnn_max_k max_num ∈ k_candidate_list ∧
      (∀ c ∈ k_candidate_list,
        Nat.dist (gnn_max_k max_num) max_num ≤ Nat.dist c max_num)) ∧
    (∀ min_k max_k len : ℕ,
      (k_list_of min_k max_k len).length = len ∧
      (∀ k ∈ k_list_of min_k max_k len,
        ∃ j, j ≤ 4 ∧ k = min (min_k * 2 ^ j) max_k) ∧
      (∀ k ∈ k_list_of min_k max_k len, k ≤ max_k)) ∧
    (∀ h_min w_min : ℕ, gnn_max_num_2d h_min w_min = h_min * w_min / 2) ∧
    (∀ h_min w_min d_min : ℕ,
      gnn_max_num_3d h_min w_min d_min = h_min * w_min * d_min / 3) ∧
    (∀ (p : ℕ) (kl : List ℕ), gnn_max_dilation p kl = p / kl.foldl max 0) ∧
    (∀ (bl : List ℕ) (index md j : ℕ), j < bl.getD index 0 →
      (gnn_block_dilations bl index md).getD j 0 =
        min ((j + (bl.take index).sum) / 4 + 1) md) := by
  refine ⟨?_, ?_, fun _ _ => rfl, fun _ _ _ => rfl, fun _ _ => rfl, ?_⟩
  · intro max_num
    exact min_by_absdiff_spec max_num 2 [4, 8, 16, 32]
  · intro min_k max_k len
    refine ⟨k_list_of_length min_k max_k len, k_list_of_mem min_k max_k len, ?_⟩
    intro k hk
    obtain ⟨j, _, rfl⟩ := k_list_of_mem min_k max_k len k hk
    exact min_le_right _ _
  · intro bl index md j hj
    unfold gnn_block_dilations
    exact getD_map_range _ _ _ hj

/-- Witness for C8 at concrete parameters. -/
theorem c8_knn_parameter_selection_witness :
    Nat.dist (gnn_max_k 10) 10 ≤ Nat.dist 32 10 ∧
    (k_list_of 3 8 4).length = 4 ∧
    (3 : ℕ) ≤ 8 ∧
    (gnn_block_dilations [2, 2] 1 3).getD 0 0 =
      min ((0 + ([2, 2].take 1).sum) / 4 + 1) 3 :=
  ⟨(c8_knn_parameter_selection.1 10).2 32 (by decide),
   (c8_knn_parameter_selection.2.1 3 8 4).1,
   (c8_knn_parameter_selection.2.1 3 8 4).2.2 3 (by decide),
   c8_knn_parameter_selection.2.2.2.2.2 [2, 2] 1 3 0 (by decide)⟩

/-- C9: each of the three `_get_relative_pos` methods returns the stored
embedding unchanged when it is `None` or when the product of the given
spatial sizes equals `self.n`, and only otherwise interpolates it to
`(N, N // r^d)`; for an unsupported conv op it raises
`NotImplementedError`. -/
theorem c9_get_relative_pos_conditional :
    (∀ (α : Type) (n r H W : ℕ) (rp : α),
      grapher_get_relative_pos ConvOp.conv2d n r (none : Option α) [H, W] =
        Except.ok (RelPosResult.unchanged none) ∧
      (H * W = n →
        grapher_get_relative_pos ConvOp.conv2d n r (some rp) [H, W] =
          Except.ok (RelPosResult.unchanged (some rp))) ∧
      (H * W ≠ n →
        grapher_get_relative_pos ConvOp.conv2d n r (some rp) [H, W] =
          Except.ok (RelPosResult.interpolated rp (H * W) ((H * W) / r ^ 2)))) ∧
    (∀ (α : Type) (n r H W D : ℕ) (rp : α),
      grapher_get_relative_pos ConvOp.conv3d n r (none : Option α) [H, W, D] =
        Except.ok (RelPosResult.unchanged none) ∧
      (H * W * D = n →
        grapher_get_relative_pos ConvOp.conv3d n r (some rp) [H, W, D] =
          Except.ok (RelPosResult.unchanged (some rp))) ∧
      (H * W * D ≠ n →
        grapher_get_relative_pos ConvOp.conv3d n r (some rp) [H, W, D] =
          Except.ok (RelPosResult.interpolated rp (H * W * D)
            ((H * W * D) / r ^ 3)))) ∧
    (∀ (α : Type) (n r : ℕ) (rp : Option α) (st : List ℕ),
      grapher_get_relative_pos ConvOp.other n r rp st =
        Except.error "NotImplementedError") ∧
    (∀ (α : Type) (n r H W : ℕ) (rp : α),
      swinGrapher_get_relative_pos ConvOp.conv2d n r (none : Option α) [H, W] =
        Except.ok (RelPosResult.unchanged none) ∧
      (H * W = n →
        swinGrapher_get_relative_pos ConvOp.conv2d n r (some rp) [H, W] =
          Except.ok (RelPosResult.unchanged (some rp))) ∧
      (H * W ≠ n →
        swinGrapher_get_relative_pos ConvOp.conv2d n r (some rp) [H, W] =
          Except.ok (RelPosResult.interpolated rp (H * W) ((H * W) / r ^ 2)))) ∧
    (∀ (α : Type) (n r S H W : ℕ) (rp : α),
      swinGrapher_get_relative_pos ConvOp.conv3d n r (none : Option α) [S, H, W] =
        Except.ok (RelPosResult.unchanged none) ∧
      (S * H * W = n →
        swinGrapher_get_relative_pos ConvOp.conv3d n r (some rp) [S, H, W] =
          Except.ok (RelPosResult.unchanged (some rp))) ∧
      (S * H * W ≠ n →
        swinGrapher_get_relative_pos ConvOp.conv3d n r (some rp) [S, H, W] =
          Except.ok (RelPosResult.interpolated rp (S * H * W)
            ((S * H * W) / r ^ 3)))) ∧
    (∀ (α : Type) (n r : ℕ) (rp : Option α) (st : List ℕ),
      swinGrapher_get_relative_pos ConvOp.other n r rp st =
        Except.error "NotImplementedError") ∧
    (∀ (α : Type) (n r H W : ℕ) (rp : α),
      poolGrapher_get_relative_pos ConvOp.conv2d n r (none : Option α) [H, W] =
        Except.ok (RelPosResult.unchanged none) ∧
      (H * W = n →
        poolGrapher_get_relative_pos ConvOp.conv2d n r (some rp) [H, W] =
          Except.ok (RelPosResult.unchanged (some rp))) ∧
      (H * W ≠ n →
        poolGrapher_get_relative_pos ConvOp.conv2d n r (some rp) [H, W] =
          Except.ok (RelPosResult.interpolated rp (H * W) ((H * W) / r ^ 2)))) ∧
    (∀ (α : Type) (n r S H W : ℕ) (rp : α),
      poolGrapher_get_relative_pos ConvOp.conv3d n r (none : Option α) [S, H, W] =
        Except.ok (RelPosResult.unchanged none) ∧
      (S * H * W = n →
        poolGrapher_get_relative_pos ConvOp.conv3d n r (some rp) [S, H, W] =
          Except.ok (RelPosResult.unchanged (some rp))) ∧
      (S * H * W ≠ n →
        poolGrapher_get_relative_pos ConvOp.conv3d n r (some rp) [S, H, W] =
          Except.ok (RelPosResult.interpolated rp (S * H * W)
            ((S * H * W) / r ^ 3)))) ∧
    (∀ (α : Type) (n r : ℕ) (rp : Option α) (st : List ℕ),
      poolGrapher_get_relative_pos ConvOp.other n r rp st =
        Except.error "NotImplementedError") := by
  refine ⟨?_, ?_, fun _ _ _ _ _ => rfl, ?_, ?_, fun _ _ _ _ _ => rfl,
    ?_, ?_, fun _ _ _ _ _ => rfl⟩
  · intro α n r H W rp
    refine ⟨rfl, fun h => ?_, fun h => ?_⟩
    · simp [grapher_get_relative_pos, h]
    · simp [grapher_get_relative_pos, h, pow_two]
  · intro α n r H W D rp
    refine ⟨rfl, fun h => ?_, fun h => ?_⟩
    · simp [grapher_get_relative_pos, h]
    · simp [grapher_get_relative_pos, h, pow_succ, pow_two]
  · intro α n r H W rp
    refine ⟨rfl, fun h => ?_, fun h => ?_⟩
    · simp [swinGrapher_get_relative_pos, h]
    · simp [swinGrapher_get_relative_pos, h, pow_two]
  · intro α n r S H W rp
    refine ⟨rfl, fun h => ?_, fun h => ?_⟩
    · simp [swinGrapher_get_relative_pos, h]
    · simp [swinGrapher_get_relative_pos, h, pow_succ, pow_two]
  · intro α n r H W rp
    refine ⟨rfl, fun h => ?_, fun h => ?_⟩
    · simp [poolGrapher_get_relative_pos, h]
    · simp [poolGrapher_get_relative_pos, h, pow_two]
  · intro α n r S H W rp
    refine ⟨rfl, fun h => ?_, fun h => ?_⟩
    · simp [poolGrapher_get_relative_pos, h]
    · simp [poolGrapher_get_relative_pos, h, pow_succ, pow_two]

/-- Witness for C9 at concrete sizes. -/
theorem c9_get_relative_pos_conditional_witness :
    grapher_get_relative_pos ConvOp.conv2d 6 1 (some (5 : ℕ)) [2, 3] =
      Except.ok (RelPosResult.unchanged (some 5)) ∧
    grapher_get_relative_pos ConvOp.conv2d 7 2 (some (5 : ℕ)) [2, 3] =
      Except.ok (RelPosResult.interpolated 5 (2 * 3) ((2 * 3) / 2 ^ 2)) ∧
    poolGrapher_get_relative_pos ConvOp.conv3d 9 1 (some (5 : ℕ)) [2, 2, 2] =
      Except.ok (RelPosResult.interpolated 5 (2 * 2 * 2) ((2 * 2 * 2) / 1 ^ 3)) :=
  ⟨(c9_get_relative_pos_conditional.1 ℕ 6 1 2 3 5).2.1 rfl,
   (c9_get_relative_pos_conditional.1 ℕ 7 2 2 3 5).2.2 (by decide),
   (c9_get_relative_pos_conditional.2.2.2.2.2.2.2.1 ℕ 9 1 2 2 2 5).2.2 (by decide)⟩

end NnunetSpec
